import Mathlib

/-!
# Verification of the transapp job orchestration and segmentation subsystem

Shallow embedding of the repository's Python sources:

* `cut.py`      — segment planner / cutter (`fast_cut`, `make_slice`)
* `app.py`      — Flask endpoints (`sign`, `start_job`, `stream_raw`)
* `s3_utils.py` — presigned upload helpers (`presign_multipart`)
* `title_clips.py` — enrichment driver (`process_clip`, `main`)

Machine floats are modelled as `ℚ` (the arithmetic in the claims is exact on
the inputs considered), external capabilities (ffprobe, ffmpeg, S3, OpenAI)
are modelled as explicit oracle parameters, and Python exceptions as
`Except`/`Option` values.
-/

namespace Transapp

/-! ## Segment planner (`cut.py`, `fast_cut`)

`fast_cut(src, parts, interval)` first checks `bool(parts) == bool(interval)`
and raises `ValueError` when the truthiness agrees; only then does it probe the
media duration with ffprobe.  In count mode it sets `interval = total / parts`;
in interval mode `parts = math.ceil(total / interval)`.  It then iterates
`idx in range(parts)` with boundaries
`start = idx*interval`, `end = min((idx+1)*interval, total)` and runs
`make_slice(src, start, end, idx)` for each. -/

/-- One boundary triple handed to `make_slice`: the plan entry
`(idx, start, stop)`; the segment duration is `stop - start`. -/
structure PlanEntry where
  idx : ℕ
  start : ℚ
  stop : ℚ
  deriving Repr, DecidableEq

/-- Duration of a plan entry (`end - start` of the ffmpeg invocation). -/
def PlanEntry.duration (e : PlanEntry) : ℚ := e.stop - e.start

/-- Python truthiness of the optional `parts : int` argument
(`None` and `0` are falsy). -/
def truthyInt : Option ℤ → Bool
  | none => false
  | some k => decide (k ≠ 0)

/-- Python truthiness of the optional `interval : float` argument
(`None` and `0.0` are falsy). -/
def truthyRat : Option ℚ → Bool
  | none => false
  | some x => decide (x ≠ 0)

/-- Errors `fast_cut` can raise before reaching the slicing loop. -/
inductive CutError where
  /-- `ValueError("Specify exactly one of --parts OR --interval.")` -/
  | invalidPartition : CutError
  /-- `video_duration` (ffprobe) failed; carries the message. -/
  | probeFailed : String → CutError
  deriving Repr, DecidableEq

/-- The sequence of boundary triples `fast_cut` feeds to `make_slice`.
`probe` is the result of `video_duration(src)` (only consulted after the
partition-spec check, exactly as in the source).  Mirrors `cut.py` lines
62–75. -/
def fast_cut (probe : Except String ℚ) (parts : Option ℤ) (interval : Option ℚ) :
    Except CutError (List PlanEntry) :=
  if truthyInt parts = truthyRat interval then
    Except.error CutError.invalidPartition
  else
    match probe with
    | Except.error m => Except.error (CutError.probeFailed m)
    | Except.ok total =>
      let p : ℤ :=
        if truthyInt parts then Option.getD parts 0
        else Int.ceil (total / Option.getD interval 0)
      let ivl : ℚ :=
        if truthyInt parts then total / ((Option.getD parts 0 : ℤ) : ℚ)
        else Option.getD interval 0
      Except.ok ((List.range p.toNat).map (fun i =>
        { idx := i, start := (i : ℚ) * ivl, stop := min (((i : ℚ) + 1) * ivl) total }))

/-- Human-readable message of a `CutError`, as the exception text that reaches
the caller of `cut.py`. -/
def cutErrorMsg : CutError → String
  | CutError.invalidPartition => "Specify exactly one of --parts OR --interval."
  | CutError.probeFailed m => m

/-- Decidable equality for `Except` values (both components decidable). -/
instance {ε α : Type} [DecidableEq ε] [DecidableEq α] : DecidableEq (Except ε α)
  | Except.ok a, Except.ok b =>
      if h : a = b then isTrue (by rw [h]) else isFalse (by intro hh; cases hh; exact h rfl)
  | Except.ok _, Except.error _ => isFalse (by intro h; cases h)
  | Except.error _, Except.ok _ => isFalse (by intro h; cases h)
  | Except.error e, Except.error f =>
      if h : e = f then isTrue (by rw [h]) else isFalse (by intro hh; cases hh; exact h rfl)

/-! ## Progress stream and job orchestrator (`app.py`)

The `/stream_raw/<job_id>` route pops the job from the in-memory `JOBS`
dict (default `{}` when absent) and returns a generator that yields UTF-8
text lines: a fetch stage, the relayed output of `python cut.py src --parts N`,
the relayed output of `python title_clips.py`, and a terminal success or
failure line.  Each yielded line is modelled by one `Ev` constructor. -/

/-- One line of the progress stream (`app.py`, `generate` inside `stream_raw`,
plus the lines of `cut.py` relayed through `run_cmd`). -/
inductive Ev where
  /-- the line `Shkarkimi nga S3: {s3_key}` (the key is `none` when the job
  record was the `JOBS.pop` default and `s3_key` is Python `None`). -/
  | fetchS3 : Option String → Ev
  /-- the line `Shkarkuar` after a successful S3 download. -/
  | fetched : Ev
  /-- a line relayed from the yt-dlp branch (`link` nonempty). -/
  | ytLine : String → Ev
  /-- the line `Prerja ne N pjese` announcing the cut stage. -/
  | cutStart : ℤ → Ev
  /-- the `cut.py` info line naming the media and the part count. -/
  | cutInfo : ℕ → Ev
  /-- the `cut.py` per-slice line `pjesa idx+1 -> file` printed after a
  successful `make_slice`. -/
  | sliceLine : ℕ → Ev
  /-- the `cut.py` closing line naming the clip directory. -/
  | cutSaved : Ev
  /-- the line `Gjenerimi i titujve` announcing the title stage. -/
  | titleStart : Ev
  /-- a line relayed from `title_clips.py`. -/
  | titleLine : String → Ev
  /-- the terminal success line `FINISHED`. -/
  | finished : Ev
  /-- the terminal failure line carrying the exception text. -/
  | failure : String → Ev
  deriving Repr, DecidableEq

/-- Whether an event is the failure marker line. -/
def Ev.isFailure : Ev → Bool
  | Ev.failure _ => true
  | _ => false

/-- Terminal state of a job run (the spec's `Succeeded` / `Failed`). -/
inductive JobState where
  | Succeeded : JobState
  | Failed : JobState
  deriving Repr, DecidableEq

/-- External capabilities of one job run, passed as oracles: S3 download,
ffprobe duration probe, per-slice ffmpeg success, the text of a failed
slice's `CalledProcessError`, the yt-dlp branch, and the `title_clips.py`
subprocess (its relayed lines and optional failure message). -/
structure Ext where
  s3download : String → Except String String
  probe : String → Except String ℚ
  exec : ℕ → Bool
  execMsg : ℕ → String
  ytFetch : String → List Ev × Except String String
  titleRun : List Ev × Option String

/-- The slicing loop of `fast_cut` (`for idx in range(parts): print(make_slice(...))`):
each successful `make_slice` prints one slice line; the first failing one
raises, so no further entry is attempted.  Returns the printed lines, the
failure message of the first failing slice (if any), and the list of
attempted entry indices in order. -/
def cutLoop (exec : ℕ → Bool) (execMsg : ℕ → String) :
    List PlanEntry → List Ev × Option String × List ℕ
  | [] => ([], none, [])
  | e :: rest =>
    if exec e.idx then
      let r := cutLoop exec execMsg rest
      (Ev.sliceLine e.idx :: r.1, r.2.1, e.idx :: r.2.2)
    else ([], some (execMsg e.idx), [e.idx])

/-- One invocation of `python cut.py src --parts N` (or `--interval`) end to end:
the plan of `fast_cut` followed by the slicing loop.  Returns the emitted
lines, the failure message if the process died (nonzero exit relayed by
`run_cmd.check_returncode`), and the attempted entry indices. -/
def fast_cut_run (probe : Except String ℚ) (exec : ℕ → Bool) (execMsg : ℕ → String)
    (parts : Option ℤ) (interval : Option ℚ) : List Ev × Option String × List ℕ :=
  match fast_cut probe parts interval with
  | Except.error e => ([], some (cutErrorMsg e), [])
  | Except.ok plan =>
    let r := cutLoop exec execMsg plan
    match r.2.1 with
    | some m => (Ev.cutInfo plan.length :: r.1, some m, r.2.2)
    | none => (Ev.cutInfo plan.length :: (r.1 ++ [Ev.cutSaved]), none, r.2.2)

/-- One job record of the `JOBS` dict, with the `.get` defaults of
`stream_raw` applied (`link` defaults to `""`, `s3_key` to `None`,
`parts` to `5`). -/
structure JobRec where
  link : String
  s3_key : Option String
  parts : ℤ
  deriving Repr, DecidableEq

/-- The record `JOBS.pop(job_id, {})` yields for an absent job id, after the
`.get` defaults of `stream_raw`. -/
def defaultJob : JobRec := { link := "", s3_key := none, parts := 5 }

/-- Message of the `TypeError` raised by `download_to_temp(None)` when the
popped job record was the empty default (`Path(None)` rejects `None`). -/
def downloadNoneMsg : String := "argument should be a str or an os.PathLike object, not NoneType"

/-- The body of the `generate` generator in `stream_raw` from the point the
source is known (`app.py` lines 131–144): run `cut.py`, then
`title_clips.py`, ending with the success or failure marker.  Returns the
stream lines, the terminal job state, and the attempted slice indices. -/
def afterFetch (ext : Ext) (job : JobRec) (pre : List Ev) (src : String) :
    List Ev × JobState × List ℕ :=
  let r := fast_cut_run (ext.probe src) ext.exec ext.execMsg (some job.parts) none
  match r.2.1 with
  | some m =>
    (pre ++ [Ev.cutStart job.parts] ++ r.1 ++ [Ev.failure m], JobState.Failed, r.2.2)
  | none =>
    match ext.titleRun with
    | (tevs, some m) =>
      (pre ++ [Ev.cutStart job.parts] ++ r.1 ++ [Ev.titleStart] ++ tevs ++ [Ev.failure m],
        JobState.Failed, r.2.2)
    | (tevs, none) =>
      (pre ++ [Ev.cutStart job.parts] ++ r.1 ++ [Ev.titleStart] ++ tevs ++ [Ev.finished],
        JobState.Succeeded, r.2.2)

/-- The whole `generate` generator of `stream_raw` (`app.py` lines 113–144):
fetch the source (yt-dlp branch when `link` is nonempty, S3 otherwise,
raising on a `None` key), then cut, then title.  Any exception is caught and
yielded as the single terminal failure line. -/
def generate (ext : Ext) (job : JobRec) : List Ev × JobState × List ℕ :=
  if job.link ≠ "" then
    match ext.ytFetch job.link with
    | (evs, Except.error m) => (evs ++ [Ev.failure m], JobState.Failed, [])
    | (evs, Except.ok src) => afterFetch ext job evs src
  else
    match job.s3_key with
    | none => ([Ev.fetchS3 none, Ev.failure downloadNoneMsg], JobState.Failed, [])
    | some k =>
      match ext.s3download k with
      | Except.error m => ([Ev.fetchS3 (some k), Ev.failure m], JobState.Failed, [])
      | Except.ok src => afterFetch ext job [Ev.fetchS3 (some k), Ev.fetched] src

/-- The dict pop `JOBS.pop(job_id, {})` on the in-memory registry, modelled
as a partial map: removes and returns the entry, or returns the default
record and leaves the registry unchanged. -/
def JOBS_pop (jobs : String → Option JobRec) (jid : String) :
    JobRec × (String → Option JobRec) :=
  match jobs jid with
  | some j => (j, fun k => if k = jid then none else jobs k)
  | none => (defaultJob, jobs)

/-- The `/stream_raw/<job_id>` route: pop the job from the registry, then
produce its progress stream.  Returns the stream result and the registry
after the pop. -/
def stream_raw (ext : Ext) (jobs : String → Option JobRec) (jid : String) :
    (List Ev × JobState × List ℕ) × (String → Option JobRec) :=
  let r := JOBS_pop jobs jid
  (generate ext r.1, r.2)

/-- The `/start-job` route (`app.py` lines 85–91): registers
`{"link": "", "s3_key": …, "parts": max(2, int(data.get("parts", 5)))}`
under a fresh job id and leaves every other registry entry unchanged. -/
def start_job (jobs : String → Option JobRec) (jid : String)
    (parts_field : Option ℤ) (s3_key_field : String) : String → Option JobRec :=
  fun k =>
    if k = jid then
      some { link := "", s3_key := some s3_key_field,
             parts := max 2 (Option.getD parts_field 5) }
    else jobs k

/-! ## Upload negotiation (`app.py` `sign`, `s3_utils.py` `presign_multipart`)

The presigned URLs returned by boto3 are modelled by structures carrying the
parameters the source passes to `generate_presigned_post` /
`generate_presigned_url`; the fresh `uuid.uuid4().hex` of `sign` is an
explicit `nonce` parameter (32 lowercase hex characters at runtime). -/

/-- A single-POST upload policy (`generate_presigned_post`): the object key,
the enforced content-type policy condition, the `content-length-range`
upper bound, and the expiry. -/
structure PostPolicy where
  key : List Char
  contentTypeStartsWith : String
  maxBytes : ℕ
  expiresIn : ℕ
  deriving Repr, DecidableEq

/-- One presigned `upload_part` PUT URL of a multipart session. -/
structure PartUrl where
  key : List Char
  uploadId : String
  partNumber : ℕ
  expiresIn : ℕ
  deriving Repr, DecidableEq

/-- The presigned `complete_multipart_upload` URL of a multipart session. -/
structure CompleteUrl where
  key : List Char
  uploadId : String
  expiresIn : ℕ
  deriving Repr, DecidableEq

/-- The dict returned by `presign_multipart`. -/
structure MultipartPlan where
  upload_id : String
  s3_key : List Char
  part_mb : ℕ
  part_urls : List PartUrl
  complete_url : CompleteUrl
  deriving Repr, DecidableEq

/-- An upload negotiation response: either a single-POST policy or a
multipart plan. -/
inductive UploadPlan where
  | single : PostPolicy → UploadPlan
  | multipart : MultipartPlan → UploadPlan
  deriving Repr, DecidableEq

/-- The object key carried by an upload plan (`s3_key` in both dict shapes). -/
def planKey : UploadPlan → List Char
  | UploadPlan.single p => p.key
  | UploadPlan.multipart m => m.s3_key

/-- An upload negotiation request, `{filename, size}` as documented for the
external interface (the declared size is client-reported). -/
structure SignRequest where
  filename : List Char
  size : ℕ
  deriving Repr, DecidableEq

/-- The final path component (text after the last slash), as
`pathlib.PurePath.name` computes it for the filenames at hand. -/
def pyName (cs : List Char) : List Char :=
  (cs.reverse.takeWhile (fun ch => !(ch == '/'))).reverse

/-- Python `pathlib.Path(filename).suffix`: the extension from the last dot
of the final component, empty when the dot is absent, leading or trailing. -/
def pysuffix (filename : List Char) : List Char :=
  let name := pyName filename
  match name.reverse.findIdx? (fun ch => ch == '.') with
  | none => []
  | some rj =>
    let i := name.length - 1 - rj
    if 0 < i ∧ i < name.length - 1 then name.drop i else []

/-- The `/sign` route (`app.py` lines 63–80): always issues a one-off POST
policy for the key `full/{uuid4().hex}{ext}` with `ext` the filename's
suffix (or `.mp4`), a `starts-with $Content-Type video/` condition, a
`content-length-range` of 0 to 5 GiB, and a 3600 s expiry.  The declared
size in the request is never read. -/
def sign (nonce : List Char) (req : SignRequest) : UploadPlan :=
  let ext := if pysuffix req.filename = [] then ".mp4".toList else pysuffix req.filename
  UploadPlan.single
    { key := ("full/".toList ++ nonce) ++ ext
      contentTypeStartsWith := "video/"
      maxBytes := 5368709120
      expiresIn := 3600 }

/-- The helper `presign_multipart` of `s3_utils.py` (lines 61–113): key
`full/{filename}`, `parts = math.ceil(size / (part_mb * 1024 * 1024))`,
one `upload_part` URL per part number 1..parts, and one complete URL.
The storage-side `UploadId` is the `uploadId` parameter. -/
def presign_multipart (uploadId : String) (filename : List Char) (size : ℕ)
    (part_mb : ℕ) (expires : ℕ) : MultipartPlan :=
  let key := "full/".toList ++ filename
  let parts := (Int.ceil ((size : ℚ) / ((part_mb * 1024 * 1024 : ℕ) : ℚ))).toNat
  { upload_id := uploadId
    s3_key := key
    part_mb := part_mb
    part_urls := (List.range parts).map (fun i =>
      { key := key, uploadId := uploadId, partNumber := i + 1, expiresIn := expires })
    complete_url := { key := key, uploadId := uploadId, expiresIn := expires } }

/-! ## Enrichment driver (`title_clips.py`)

`process_clip` returns a `(file, title)` pair, or `None` when any step of
the enrichment (audio extraction, transcription, title generation) raised;
`main` collects the non-`None` results of the sorted clip list and writes
them to the CSV — unless the clip list is empty, in which case it returns
before any CSV is created.  The per-clip enrichment outcome is the oracle
`enrich`. -/

/-- The function `process_clip` of `title_clips.py` (lines 107–126): a row
for a successful enrichment, `none` when the enrichment raised (the clip is
skipped with a printed warning). -/
def process_clip (enrich : String → Except String String) (name : String) :
    Option (String × String) :=
  match enrich name with
  | Except.ok title => some (name, title)
  | Except.error _ => none

/-- The function `main` of `title_clips.py` (lines 128–148), observed as the
rows of the written CSV: `none` when no clips were found (early return, no
CSV file), otherwise the rows of successfully processed clips in order. -/
def title_clips_main (enrich : String → Except String String) (clips : List String) :
    Option (List (String × String)) :=
  if clips.isEmpty then none
  else some (clips.filterMap (process_clip enrich))

/-! ## Concrete sample oracles for witnesses and counterexamples -/

/-- Sample external capabilities: a 600 s source fetched from S3, slices
succeeding only at index 0 (so entry 2 of the plan fails), a quiet title
stage. -/
def extSample : Ext :=
  { s3download := fun _ => Except.ok "tmp_src.mp4"
    probe := fun _ => Except.ok 600
    exec := fun i => i == 0
    execMsg := fun i => toString i
    ytFetch := fun _ => ([], Except.error "unused")
    titleRun := ([], none) }

/-- A registry holding one job, as `start_job` would create it. -/
def jobsSample : String → Option JobRec :=
  fun k => if k = "j1" then some { link := "", s3_key := some "full/x.mp4", parts := 5 } else none

/-- A sample enrichment oracle that always succeeds with a fixed title. -/
def enrichOk : String → Except String String := fun _ => Except.ok "Titull i ri"

/-- A sample value of `uuid.uuid4().hex` (32 hex characters). -/
def nonce0 : List Char := "0123456789abcdef0123456789abcdef".toList

/-- A second, different sample of `uuid.uuid4().hex`. -/
def nonce1 : List Char := "ffffffff0123456789abcdef01234567".toList

/-! ## Theorems -/

/-- Closed form of the count-mode plan: with a nonzero `parts` and no
`interval`, `fast_cut` emits the boundaries `(i, i*ivl, min((i+1)*ivl, total))`
for `i < parts`, where `ivl = total / parts`. -/
lemma fast_cut_count_eq (total : ℚ) (c : ℕ) (hc : c ≠ 0) :
    fast_cut (Except.ok total) (some (c : ℤ)) none =
      Except.ok ((List.range c).map (fun i =>
        ⟨i, (i : ℚ) * (total / c), min (((i : ℚ) + 1) * (total / c)) total⟩)) := by
  have h1 : truthyInt (some (c : ℤ)) = true := by
    simp [truthyInt, hc]
  simp [fast_cut, h1, truthyRat]

/-- Closed form of the interval-mode plan: with no `parts` and a nonzero
`interval` `v`, `fast_cut` emits `(i, i*v, min((i+1)*v, total))` for
`i < ceil(total / v)`. -/
lemma fast_cut_interval_eq (total v : ℚ) (hv : v ≠ 0) :
    fast_cut (Except.ok total) none (some v) =
      Except.ok ((List.range (Int.ceil (total / v)).toNat).map (fun i =>
        ⟨i, (i : ℚ) * v, min (((i : ℚ) + 1) * v) total⟩)) := by
  have h1 : truthyRat (some v) = true := by
    simp [truthyRat, hv]
  simp [fast_cut, h1, truthyInt]

/-- C1: for every `totalDuration > 0` and `count ≥ 2`, count-mode planning
produces exactly `count` entries in index order, the first starting at 0,
each consecutive pair being gapless (`start[i+1] = start[i] + duration[i]`),
and the last ending exactly at `totalDuration`; the scenario
`totalDuration = 600`, `count = 5` yields the plan
`[(0,0,120), (1,120,120), (2,240,120), (3,360,120), (4,480,120)]`
(entries stored as `(idx, start, stop)` with `duration = stop - start`). -/
theorem fastCut_count_mode :
    (∀ (total : ℚ) (c : ℕ), 0 < total → 2 ≤ c →
      ∃ plan, fast_cut (Except.ok total) (some (c : ℤ)) none = Except.ok plan ∧
        plan.length = c ∧
        (∀ i (h : i < plan.length), (plan.get ⟨i, h⟩).idx = i) ∧
        (∀ h0 : 0 < plan.length, (plan.get ⟨0, h0⟩).start = 0) ∧
        (∀ i (h1 : i + 1 < plan.length),
          (plan.get ⟨i + 1, h1⟩).start
            = (plan.get ⟨i, by omega⟩).start + (plan.get ⟨i, by omega⟩).duration) ∧
        (∀ h : plan ≠ [], (plan.getLast h).start + (plan.getLast h).duration = total)) ∧
    fast_cut (Except.ok 600) (some 5) none =
      Except.ok [⟨0, 0, 120⟩, ⟨1, 120, 240⟩, ⟨2, 240, 360⟩, ⟨3, 360, 480⟩, ⟨4, 480, 600⟩] := by
  constructor
  · intro total c ht hc
    have hc0 : c ≠ 0 := by omega
    have hcq : (0 : ℚ) < (c : ℚ) := by positivity
    refine ⟨_, fast_cut_count_eq total c hc0, ?_, ?_, ?_, ?_, ?_⟩
    · simp
    · intro i h
      simp [List.get_eq_getElem]
    · intro h0
      simp [List.get_eq_getElem]
    · intro i h1
      simp only [List.length_map, List.length_range] at h1
      have hmin : ((i : ℚ) + 1) * (total / c) ≤ total := by
        have hle : ((i : ℚ) + 1) ≤ (c : ℚ) := by
          exact_mod_cast Nat.succ_le_of_lt (by omega)
        calc ((i : ℚ) + 1) * (total / c) ≤ (c : ℚ) * (total / c) := by
              apply mul_le_mul_of_nonneg_right hle
              positivity
          _ = total := by field_simp
      simp only [List.get_eq_getElem, List.getElem_map, List.getElem_range,
        PlanEntry.duration]
      push_cast
      rw [min_eq_left hmin]
      ring
    · intro h
      have hlen : ((List.range c).map (fun i =>
          (⟨i, (i : ℚ) * (total / c), min (((i : ℚ) + 1) * (total / c)) total⟩ :
            PlanEntry))).length = c := by simp
      rw [List.getLast_eq_getElem]
      simp only [List.getElem_map, List.getElem_range, hlen, PlanEntry.duration]
      have hc1 : ((c - 1 : ℕ) : ℚ) + 1 = (c : ℚ) := by
        push_cast [Nat.cast_sub (by omega : 1 ≤ c)]
        ring
      rw [hc1]
      have hct : (c : ℚ) * (total / c) = total := by field_simp
      rw [hct, min_self]
      ring
  · simp only [fast_cut, truthyInt, truthyRat]
    norm_num
    rw [show ((5 : ℤ).toNat = 5) from rfl, show List.range 5 = [0, 1, 2, 3, 4] from rfl]
    simp only [List.map]
    norm_num [PlanEntry.mk.injEq, min_eq_left, min_eq_right]

/-- Witness for C1: the count-mode properties instantiated at
`totalDuration = 600`, `count = 5`. -/
theorem fastCut_count_mode_witness :
    ∃ plan, fast_cut (Except.ok 600) (some ((5 : ℕ) : ℤ)) none = Except.ok plan ∧
      plan.length = 5 ∧
      (∀ i (h : i < plan.length), (plan.get ⟨i, h⟩).idx = i) ∧
      (∀ h0 : 0 < plan.length, (plan.get ⟨0, h0⟩).start = 0) ∧
      (∀ i (h1 : i + 1 < plan.length),
        (plan.get ⟨i + 1, h1⟩).start
          = (plan.get ⟨i, by omega⟩).start + (plan.get ⟨i, by omega⟩).duration) ∧
      (∀ h : plan ≠ [], (plan.getLast h).start + (plan.getLast h).duration = 600) :=
  fastCut_count_mode.1 600 5 (by norm_num) (by norm_num)

/-- C2: for every `totalDuration > 0` and `interval > 0`, interval-mode
planning produces exactly `ceil(totalDuration / interval)` entries in index
order, each of duration `interval` except the last, whose duration is
`totalDuration - interval * (count - 1)`, with the same gapless full
coverage; the scenario `totalDuration = 125`, `interval = 50` yields
`[(0,0,50), (1,50,50), (2,100,25)]` (entries stored as `(idx, start, stop)`
with `duration = stop - start`). -/
theorem fastCut_interval_mode :
    (∀ (total v : ℚ), 0 < total → 0 < v →
      ∃ plan, fast_cut (Except.ok total) none (some v) = Except.ok plan ∧
        (plan.length : ℤ) = Int.ceil (total / v) ∧
        (∀ i (h : i < plan.length), (plan.get ⟨i, h⟩).idx = i) ∧
        (∀ i (h1 : i + 1 < plan.length), (plan.get ⟨i, by omega⟩).duration = v) ∧
        (∀ h : plan ≠ [], (plan.getLast h).duration
            = total - v * ((plan.length : ℚ) - 1)) ∧
        (∀ h0 : 0 < plan.length, (plan.get ⟨0, h0⟩).start = 0) ∧
        (∀ i (h1 : i + 1 < plan.length),
          (plan.get ⟨i + 1, h1⟩).start
            = (plan.get ⟨i, by omega⟩).start + (plan.get ⟨i, by omega⟩).duration) ∧
        (∀ h : plan ≠ [], (plan.getLast h).start + (plan.getLast h).duration = total)) ∧
    fast_cut (Except.ok 125) none (some 50) =
      Except.ok [⟨0, 0, 50⟩, ⟨1, 50, 100⟩, ⟨2, 100, 125⟩] := by
  constructor
  · intro total v ht hv
    have hv0 : v ≠ 0 := ne_of_gt hv
    have hdivpos : 0 < total / v := div_pos ht hv
    have hceilpos : 0 < Int.ceil (total / v) := Int.ceil_pos.mpr hdivpos
    set n : ℕ := (Int.ceil (total / v)).toNat with hn
    have hnz : (n : ℤ) = Int.ceil (total / v) := Int.toNat_of_nonneg (le_of_lt hceilpos)
    have hn1 : 1 ≤ n := by omega
    have hupper : total ≤ (n : ℚ) * v := by
      have h := Int.le_ceil (total / v)
      have h2 : total / v ≤ (n : ℚ) := by
        rw [show ((n : ℚ) = ((n : ℤ) : ℚ)) from by push_cast; ring, hnz]
        exact_mod_cast h
      calc total = (total / v) * v := by field_simp
        _ ≤ (n : ℚ) * v := mul_le_mul_of_nonneg_right h2 (le_of_lt hv)
    have hlower : ((n : ℚ) - 1) * v < total := by
      have h := Int.ceil_lt_add_one (total / v)
      have h2 : (n : ℚ) - 1 < total / v := by
        rw [show ((n : ℚ) = ((n : ℤ) : ℚ)) from by push_cast; ring, hnz]
        have hc : ((Int.ceil (total / v) : ℚ)) < total / v + 1 := by exact_mod_cast h
        linarith
      calc ((n : ℚ) - 1) * v < (total / v) * v := mul_lt_mul_of_pos_right h2 hv
        _ = total := by field_simp
    refine ⟨_, fast_cut_interval_eq total v hv0, ?_, ?_, ?_, ?_, ?_, ?_, ?_⟩
    · simp only [List.length_map, List.length_range]
      exact hnz
    · intro i h
      simp [List.get_eq_getElem]
    · intro i h1
      simp only [List.length_map, List.length_range] at h1
      have hle : ((i : ℚ) + 1) * v ≤ total := by
        have hi2 : (i : ℚ) + 1 ≤ (n : ℚ) - 1 := by
          have hi : i + 2 ≤ n := by omega
          have hcast := (Nat.cast_le (α := ℚ)).mpr hi
          push_cast at hcast
          linarith
        calc ((i : ℚ) + 1) * v ≤ ((n : ℚ) - 1) * v :=
              mul_le_mul_of_nonneg_right hi2 (le_of_lt hv)
          _ ≤ total := le_of_lt hlower
      simp only [List.get_eq_getElem, List.getElem_map, List.getElem_range,
        PlanEntry.duration]
      rw [min_eq_left hle]
      ring
    · intro h
      rw [List.getLast_eq_getElem]
      simp only [List.getElem_map, List.getElem_range, List.length_map,
        List.length_range, PlanEntry.duration]
      have hcast : (((n - 1 : ℕ)) : ℚ) = (n : ℚ) - 1 := by
        push_cast [Nat.cast_sub hn1]
        ring
      rw [hcast]
      have hm : ((n : ℚ) - 1 + 1) * v = (n : ℚ) * v := by ring
      rw [hm, min_eq_right hupper]
      ring
    · intro h0
      simp [List.get_eq_getElem]
    · intro i h1
      simp only [List.length_map, List.length_range] at h1
      have hle : ((i : ℚ) + 1) * v ≤ total := by
        have hi2 : (i : ℚ) + 1 ≤ (n : ℚ) - 1 := by
          have hi : i + 2 ≤ n := by omega
          have hcast := (Nat.cast_le (α := ℚ)).mpr hi
          push_cast at hcast
          linarith
        calc ((i : ℚ) + 1) * v ≤ ((n : ℚ) - 1) * v :=
              mul_le_mul_of_nonneg_right hi2 (le_of_lt hv)
          _ ≤ total := le_of_lt hlower
      simp only [List.get_eq_getElem, List.getElem_map, List.getElem_range,
        PlanEntry.duration]
      push_cast
      rw [min_eq_left hle]
      ring
    · intro h
      rw [List.getLast_eq_getElem]
      simp only [List.getElem_map, List.getElem_range, List.length_map,
        List.length_range, PlanEntry.duration]
      have hcast : (((n - 1 : ℕ)) : ℚ) = (n : ℚ) - 1 := by
        push_cast [Nat.cast_sub hn1]
        ring
      rw [hcast]
      have hm : ((n : ℚ) - 1 + 1) * v = (n : ℚ) * v := by ring
      rw [hm, min_eq_right hupper]
      ring
  · simp only [fast_cut, truthyInt, truthyRat]
    norm_num [Int.ceil_eq_iff]
    rw [show (⌈(5 : ℚ) / 2⌉ = 3) from by norm_num [Int.ceil_eq_iff]]
    rw [show List.range (3 : ℤ).toNat = [0, 1, 2] from rfl]
    simp only [List.map]
    norm_num [PlanEntry.mk.injEq, min_eq_left, min_eq_right]

/-- Witness for C2: the interval-mode properties instantiated at
`totalDuration = 125`, `interval = 50`. -/
theorem fastCut_interval_mode_witness :
    ∃ plan, fast_cut (Except.ok 125) none (some 50) = Except.ok plan ∧
      (plan.length : ℤ) = Int.ceil ((125 : ℚ) / 50) ∧
      (∀ i (h : i < plan.length), (plan.get ⟨i, h⟩).idx = i) ∧
      (∀ i (h1 : i + 1 < plan.length), (plan.get ⟨i, by omega⟩).duration = 50) ∧
      (∀ h : plan ≠ [], (plan.getLast h).duration
          = 125 - 50 * ((plan.length : ℚ) - 1)) ∧
      (∀ h0 : 0 < plan.length, (plan.get ⟨0, h0⟩).start = 0) ∧
      (∀ i (h1 : i + 1 < plan.length),
        (plan.get ⟨i + 1, h1⟩).start
          = (plan.get ⟨i, by omega⟩).start + (plan.get ⟨i, by omega⟩).duration) ∧
      (∀ h : plan ≠ [], (plan.getLast h).start + (plan.getLast h).duration = 125) :=
  fastCut_interval_mode.1 125 50 (by norm_num) (by norm_num)

/-- C8 counterexample: `--parts 4` and `--interval 0.0` are both provided,
yet `fast_cut` does not fail with `InvalidPartition` — Python truthiness
treats `0.0` as absent, so planning proceeds in count mode and returns a
4-entry plan for a 100 s probe. -/
theorem fastCut_both_given_counterexample :
    fast_cut (Except.ok 100) (some 4) (some 0) =
      Except.ok [⟨0, 0, 25⟩, ⟨1, 25, 50⟩, ⟨2, 50, 75⟩, ⟨3, 75, 100⟩] := by
  simp only [fast_cut, truthyInt, truthyRat]
  norm_num
  rw [show ((4 : ℤ).toNat = 4) from rfl, show List.range 4 = [0, 1, 2, 3] from rfl]
  simp only [List.map]
  norm_num [PlanEntry.mk.injEq, min_eq_left, min_eq_right]

/-- C8 amended: the mutual-exclusion check compares Python truthiness, not
presence. Planning fails with `InvalidPartition` exactly when `parts` and
`interval` are both truthy or both falsy (`None` and zero are falsy), and
this check happens before the duration probe is consulted (it fires even
when the probe would fail); when the truthiness differs, planning proceeds
in the truthy argument's mode — so a zero value provided alongside the
other argument behaves exactly as if it were absent, and a probe failure
then surfaces as its own error, not as `InvalidPartition`. -/
theorem fastCut_truthiness :
    (∀ (probe : Except String ℚ) (parts : Option ℤ) (interval : Option ℚ),
        truthyInt parts = truthyRat interval →
        fast_cut probe parts interval = Except.error CutError.invalidPartition) ∧
    (∀ (parts : Option ℤ) (interval : Option ℚ) (m : String),
        truthyInt parts ≠ truthyRat interval →
        fast_cut (Except.error m) parts interval
          = Except.error (CutError.probeFailed m)) ∧
    (∀ (probe : Except String ℚ) (c : ℤ),
        fast_cut probe (some c) (some 0) = fast_cut probe (some c) none) ∧
    (∀ (probe : Except String ℚ) (v : ℚ),
        fast_cut probe (some 0) (some v) = fast_cut probe none (some v)) := by
  refine ⟨?_, ?_, ?_, ?_⟩
  · intro probe parts interval h
    simp [fast_cut, h]
  · intro parts interval m h
    simp [fast_cut, h]
  · intro probe c
    rcases eq_or_ne c 0 with rfl | hc
    · simp [fast_cut, truthyInt, truthyRat]
    · simp [fast_cut, truthyInt, truthyRat, hc]
  · intro probe v
    simp [fast_cut, truthyInt, truthyRat]

/-- Witness for C8 amended: with neither argument given, planning fails with
`InvalidPartition` without consulting the (successful) probe. -/
theorem fastCut_truthiness_witness :
    fast_cut (Except.ok 10) none none = Except.error CutError.invalidPartition :=
  fastCut_truthiness.1 (Except.ok 10) none none rfl

/-- C6 counterexample: a declared size of 500 MiB (524288000 bytes) still
yields a Single plan — the `/sign` route never reads the declared size and
never returns a Multipart plan, contradicting the claimed 100 MiB
threshold dispatch. -/
theorem sign_large_size_counterexample :
    sign nonce0 { filename := "movie.mp4".toList, size := 524288000 } =
      UploadPlan.single
        { key := ("full/".toList ++ nonce0) ++ ".mp4".toList
          contentTypeStartsWith := "video/"
          maxBytes := 5368709120
          expiresIn := 3600 } := by
  decide

/-- C6 amended: for every declared size the negotiation endpoint returns a
Single plan — one-time POST policy for exactly one object key built from a
fresh random component and the filename's extension (default `.mp4`),
constrained to the `video/` content-type and to an absolute
5 GiB maximum independent of the declared size; the response does not
depend on the declared size at all (so 50 MiB yields a Single plan, and so
does 500 MiB — never a Multipart plan). -/
theorem sign_always_single :
    (∀ (nonce : List Char) (req : SignRequest),
      sign nonce req = UploadPlan.single
        { key := ("full/".toList ++ nonce) ++
            (if pysuffix req.filename = [] then ".mp4".toList else pysuffix req.filename)
          contentTypeStartsWith := "video/"
          maxBytes := 5368709120
          expiresIn := 3600 }) ∧
    (∀ (nonce f : List Char) (s1 s2 : ℕ),
      sign nonce { filename := f, size := s1 } = sign nonce { filename := f, size := s2 }) := by
  exact ⟨fun nonce req => rfl, fun nonce f s1 s2 => rfl⟩

/-- C7: a multipart plan for declared size `S` and chunk size `C` MiB has
exactly `ceil(S / (C * 1024 * 1024))` chunk URLs, numbered 1..n in order,
and exactly one complete URL; the scenario `S = 500 MiB`, `C = 8 MiB`
yields 63 chunk URLs. -/
theorem presign_multipart_chunks :
    (∀ (uid : String) (f : List Char) (size part_mb expires : ℕ),
      ((presign_multipart uid f size part_mb expires).part_urls.length : ℤ)
          = Int.ceil ((size : ℚ) / ((part_mb * 1024 * 1024 : ℕ) : ℚ)) ∧
      (presign_multipart uid f size part_mb expires).part_urls.map PartUrl.partNumber
          = List.range' 1 (presign_multipart uid f size part_mb expires).part_urls.length ∧
      (presign_multipart uid f size part_mb expires).complete_url
          = { key := "full/".toList ++ f, uploadId := uid, expiresIn := expires }) ∧
    (presign_multipart "uploadX" "movie.mp4".toList 524288000 8 3600).part_urls.length = 63 := by
  constructor
  · intro uid f size part_mb expires
    refine ⟨?_, ?_, rfl⟩
    · simp only [presign_multipart, List.length_map, List.length_range]
      exact Int.toNat_of_nonneg (Int.ceil_nonneg (by positivity))
    · simp only [presign_multipart, List.length_map, List.length_range,
        List.map_map]
      rw [List.range'_eq_map_range]
      apply List.map_congr_left
      intro i _
      simp [Nat.add_comm]
  · simp only [presign_multipart, List.length_map, List.length_range]
    norm_num
    rw [show (⌈(125 : ℚ) / 2⌉ = 63) from by norm_num [Int.ceil_eq_iff]]
    rfl

/-- C9 counterexample: two distinct multipart negotiations (different upload
sessions and declared sizes) with the same declared filename receive the
very same object key `full/video.mp4` — the multipart key has no random
component and is reused across calls. -/
theorem presign_multipart_key_reuse_counterexample :
    (presign_multipart "uploadA" "video.mp4".toList 209715200 8 3600).s3_key
      = (presign_multipart "uploadB" "video.mp4".toList 524288000 8 3600).s3_key := rfl

/-- C9 amended: keys issued by the `/sign` route contain a fresh random
component plus the file extension, and two calls whose random components
differ (same length, as `uuid4().hex` always has 32 characters) receive
different keys even for the same filename; the `presign_multipart` helper,
by contrast, derives its key purely from the filename, so any two calls
with the same filename share a key. -/
theorem upload_key_uniqueness :
    (∀ (n1 n2 f1 f2 : List Char) (s1 s2 : ℕ),
        n1.length = n2.length → n1 ≠ n2 →
        planKey (sign n1 { filename := f1, size := s1 })
          ≠ planKey (sign n2 { filename := f2, size := s2 })) ∧
    (∀ (uid1 uid2 : String) (f : List Char) (s1 s2 pm1 pm2 e1 e2 : ℕ),
        (presign_multipart uid1 f s1 pm1 e1).s3_key
          = (presign_multipart uid2 f s2 pm2 e2).s3_key) := by
  constructor
  · intro n1 n2 f1 f2 s1 s2 hlen hne
    simp only [sign, planKey]
    intro heq
    rw [List.append_assoc, List.append_assoc] at heq
    have h2 := List.append_cancel_left heq
    exact hne (List.append_inj_left h2 hlen)
  · intro uid1 uid2 f s1 s2 pm1 pm2 e1 e2
    rfl

/-- Witness for C9 amended: two sign calls with the same filename but
different random components receive different keys. -/
theorem upload_key_uniqueness_witness :
    planKey (sign nonce0 { filename := "video.mp4".toList, size := 52428800 })
      ≠ planKey (sign nonce1 { filename := "video.mp4".toList, size := 52428800 }) :=
  upload_key_uniqueness.1 nonce0 nonce1 "video.mp4".toList "video.mp4".toList
    52428800 52428800 (by decide) (by decide)

/-- C10: the job registered by `/start-job` has partition count
`max(2, parts)` with the `parts` field of the request defaulting to 5 when
absent — a declared count below 2 is silently clamped to 2, never
rejected, and the registered count is always at least 2. -/
theorem start_job_clamps :
    ∀ (jobs : String → Option JobRec) (jid s3k : String) (p_opt : Option ℤ),
      start_job jobs jid p_opt s3k jid
        = some { link := "", s3_key := some s3k, parts := max 2 (Option.getD p_opt 5) } ∧
      2 ≤ max 2 (Option.getD p_opt 5) ∧
      start_job jobs jid none s3k jid
        = some { link := "", s3_key := some s3k, parts := 5 } := by
  intro jobs jid s3k p_opt
  refine ⟨by simp [start_job], le_max_left _ _, by simp [start_job]⟩

/-- The number of CSV rows equals the number of clips whose enrichment
succeeded. -/
lemma length_filterMap_process (enrich : String → Except String String) :
    ∀ clips : List String,
      (clips.filterMap (process_clip enrich)).length
        = clips.countP (fun c => (enrich c).isOk)
  | [] => by simp
  | c :: rest => by
    cases h : enrich c with
    | ok t =>
      simp [process_clip, h, List.countP_cons, Except.isOk, Except.toBool,
        length_filterMap_process enrich rest]
    | error m =>
      simp [process_clip, h, List.countP_cons, Except.isOk, Except.toBool,
        length_filterMap_process enrich rest]

/-- C3 counterexample: a single artifact whose enrichment fails yields a
result table with zero rows (the artifact is dropped, no placeholder row),
not `max(1, 1) = 1` rows; and an empty artifact set yields no result table
at all (early return before the CSV is created), not a single marker row. -/
theorem title_clips_counterexample :
    (∃ rows, title_clips_main (fun _ => Except.error "APITimeoutError") ["video_part1.mp4"]
        = some rows ∧ rows.length = 0 ∧ rows.length ≠ max 1 1) ∧
    title_clips_main (fun _ => Except.error "APITimeoutError") [] = none := by
  exact ⟨⟨[], rfl, rfl, by norm_num⟩, rfl⟩

/-- C3 amended: for a nonempty artifact set the driver writes one row per
artifact whose enrichment succeeded, in order — an artifact whose
transcription or title generation fails is skipped entirely (a warning is
printed and no row is written), so the row count is the success count, not
the artifact count; every row belongs to a successfully enriched artifact
and every successfully enriched artifact has its row.  For an empty
artifact set the driver returns before creating any result table. -/
theorem title_clips_rows :
    (∀ (enrich : String → Except String String) (clips : List String),
      clips ≠ [] →
      ∃ rows, title_clips_main enrich clips = some rows ∧
        rows.length = clips.countP (fun c => (enrich c).isOk) ∧
        (∀ c t, c ∈ clips → enrich c = Except.ok t → (c, t) ∈ rows) ∧
        (∀ c t, (c, t) ∈ rows → enrich c = Except.ok t)) ∧
    (∀ enrich : String → Except String String, title_clips_main enrich [] = none) := by
  constructor
  · intro enrich clips hne
    refine ⟨clips.filterMap (process_clip enrich), ?_, ?_, ?_, ?_⟩
    · simp [title_clips_main, List.isEmpty_iff, hne]
    · exact length_filterMap_process enrich clips
    · intro c t hc ht
      exact List.mem_filterMap.mpr ⟨c, hc, by simp [process_clip, ht]⟩
    · intro c t hmem
      rcases List.mem_filterMap.mp hmem with ⟨a, _, ha⟩
      unfold process_clip at ha
      cases h : enrich a with
      | ok title =>
        rw [h] at ha
        have hat : a = c ∧ title = t := by
          constructor <;> (cases ha; rfl)
        rcases hat with ⟨rfl, rfl⟩
        exact h
      | error m =>
        rw [h] at ha
        cases ha
  · intro enrich
    rfl

/-- Witness for C3 amended: one artifact, successful enrichment, one row. -/
theorem title_clips_rows_witness :
    ∃ rows, title_clips_main enrichOk ["a_part1.mp4"] = some rows ∧
      rows.length = List.countP (fun c => (enrichOk c).isOk) ["a_part1.mp4"] ∧
      (∀ c t, c ∈ ["a_part1.mp4"] → enrichOk c = Except.ok t → (c, t) ∈ rows) ∧
      (∀ c t, (c, t) ∈ rows → enrichOk c = Except.ok t) :=
  title_clips_rows.1 enrichOk ["a_part1.mp4"] (by simp)

/-- If every slice before position `i` succeeds and the slice at position `i`
fails, the cut loop prints exactly the first `i` slice lines, aborts with
the failing slice's message, and has attempted exactly the first `i + 1`
entries. -/
lemma cutLoop_firstFail (exec : ℕ → Bool) (execMsg : ℕ → String) :
    ∀ (plan : List PlanEntry) (i : ℕ) (hi : i < plan.length),
      (∀ j (hj : j < plan.length), j < i → exec ((plan.get ⟨j, hj⟩).idx) = true) →
      exec ((plan.get ⟨i, hi⟩).idx) = false →
      cutLoop exec execMsg plan =
        ((plan.take i).map (fun e => Ev.sliceLine e.idx),
         some (execMsg ((plan.get ⟨i, hi⟩).idx)),
         (plan.take (i + 1)).map PlanEntry.idx)
  | [], i, hi => by simp at hi
  | e :: rest, 0, hi => by
    intro hpre hfail
    simp only [List.get_eq_getElem, List.getElem_cons_zero] at hfail
    simp [cutLoop, hfail]
  | e :: rest, i + 1, hi => by
    intro hpre hfail
    have he : exec e.idx = true := by
      have h0 := hpre 0 (by simp) (Nat.succ_pos i)
      simpa using h0
    have hi2 : i < rest.length := by
      simpa using hi
    have hpre2 : ∀ j (hj : j < rest.length), j < i →
        exec ((rest.get ⟨j, hj⟩).idx) = true := by
      intro j hj hji
      have hh := hpre (j + 1) (by simpa using Nat.succ_lt_succ hj) (Nat.succ_lt_succ hji)
      simpa using hh
    have hfail2 : exec ((rest.get ⟨i, hi2⟩).idx) = false := by
      simpa using hfail
    have hrec := cutLoop_firstFail exec execMsg rest i hi2 hpre2 hfail2
    simp only [cutLoop, he, hrec, if_true]
    simp


/-- C4: when the extraction capability reports non-success for plan entry
`i` of `c` (and succeeds before it), the consumed stream ends in the single
failure marker carrying that entry's failure message, the job state is
`Failed`, entries after `i` are never attempted (the attempted indices are
exactly `0..i`), and the enrichment stage line never appears. -/
theorem stream_raw_failure_propagation :
    ∀ (ext : Ext) (jobs : String → Option JobRec) (jid : String) (j : JobRec)
      (k src : String) (total : ℚ) (c i : ℕ),
      jobs jid = some j → j.link = "" → j.s3_key = some k →
      ext.s3download k = Except.ok src →
      ext.probe src = Except.ok total →
      j.parts = (c : ℤ) → 0 < total → 2 ≤ c → i < c →
      (∀ jj, jj < i → ext.exec jj = true) → ext.exec i = false →
      ∃ evs, (stream_raw ext jobs jid).1 = (evs, JobState.Failed, List.range (i + 1)) ∧
        evs = [Ev.fetchS3 (some k), Ev.fetched, Ev.cutStart j.parts, Ev.cutInfo c]
            ++ (List.range i).map Ev.sliceLine ++ [Ev.failure (ext.execMsg i)] ∧
        evs.getLast? = some (Ev.failure (ext.execMsg i)) ∧
        Ev.titleStart ∉ evs ∧
        evs.countP Ev.isFailure = 1 ∧
        (∀ jj, i < jj → jj ∉ List.range (i + 1)) := by
  intro ext jobs jid j k src total c i hjob hlink hkey hdl hprobe hparts ht hc hi hpre hfail
  have hc0 : c ≠ 0 := by omega
  have hplan := fast_cut_count_eq total c hc0
  set f : ℕ → PlanEntry := fun n =>
    ⟨n, (n : ℚ) * (total / c), min (((n : ℚ) + 1) * (total / c)) total⟩ with hf
  set plan : List PlanEntry := (List.range c).map f with hplandef
  have hlen : plan.length = c := by simp [hplandef]
  have hidx : ∀ jj (hj : jj < plan.length), (plan.get ⟨jj, hj⟩).idx = jj := by
    intro jj hj
    simp [hplandef, hf, List.get_eq_getElem]
  have hiplan : i < plan.length := by rw [hlen]; exact hi
  have hcl := cutLoop_firstFail ext.exec ext.execMsg plan i hiplan
      (fun jj hj hji => by rw [hidx jj hj]; exact hpre jj hji)
      (by rw [hidx i hiplan]; exact hfail)
  have htake1 : (plan.take i).map (fun e => Ev.sliceLine e.idx)
      = (List.range i).map Ev.sliceLine := by
    rw [hplandef, ← List.map_take, List.take_range,
      min_eq_left (le_of_lt hi), List.map_map]
    rfl
  have htake2 : (plan.take (i + 1)).map PlanEntry.idx = List.range (i + 1) := by
    rw [hplandef, ← List.map_take, List.take_range,
      min_eq_left (by omega : i + 1 ≤ c), List.map_map]
    have hcomp : (PlanEntry.idx ∘ f) = id := by
      funext n
      rfl
    rw [hcomp, List.map_id]
  have hmsg : (plan.get ⟨i, hiplan⟩).idx = i := hidx i hiplan
  have hrun : fast_cut_run (ext.probe src) ext.exec ext.execMsg (some j.parts) none
      = (Ev.cutInfo c :: (List.range i).map Ev.sliceLine,
         some (ext.execMsg i), List.range (i + 1)) := by
    rw [hprobe, hparts]
    unfold fast_cut_run
    rw [hplan]
    dsimp only
    rw [hcl]
    dsimp only
    rw [htake1, htake2, hmsg, hlen]
  have hpop : JOBS_pop jobs jid = (j, fun k2 => if k2 = jid then none else jobs k2) := by
    unfold JOBS_pop
    rw [hjob]
  have hgen : generate ext j =
      ([Ev.fetchS3 (some k), Ev.fetched] ++ [Ev.cutStart j.parts]
          ++ (Ev.cutInfo c :: (List.range i).map Ev.sliceLine)
          ++ [Ev.failure (ext.execMsg i)],
       JobState.Failed, List.range (i + 1)) := by
    unfold generate
    rw [hlink, if_neg (by simp), hkey]
    dsimp only
    rw [hdl]
    dsimp only
    unfold afterFetch
    rw [hrun]
  refine ⟨[Ev.fetchS3 (some k), Ev.fetched, Ev.cutStart j.parts, Ev.cutInfo c]
      ++ (List.range i).map Ev.sliceLine ++ [Ev.failure (ext.execMsg i)],
      ?_, rfl, ?_, ?_, ?_, ?_⟩
  · unfold stream_raw
    rw [hpop]
    dsimp only
    rw [hgen]
    simp
  · exact List.getLast?_concat _
  · simp [List.mem_append, List.mem_map]
  · simp [List.countP_append, List.countP_cons, List.countP_map, Ev.isFailure,
      Function.comp]
  · intro jj hjj
    simp only [List.mem_range]
    omega


/-- Witness for C4: a 5-part job over a 600 s source whose second slice
(entry index 1) fails. -/
theorem stream_raw_failure_propagation_witness :
    ∃ evs, (stream_raw extSample jobsSample "j1").1
        = (evs, JobState.Failed, List.range (1 + 1)) ∧
      evs = [Ev.fetchS3 (some "full/x.mp4"), Ev.fetched, Ev.cutStart 5, Ev.cutInfo 5]
          ++ (List.range 1).map Ev.sliceLine ++ [Ev.failure (extSample.execMsg 1)] ∧
      evs.getLast? = some (Ev.failure (extSample.execMsg 1)) ∧
      Ev.titleStart ∉ evs ∧
      evs.countP Ev.isFailure = 1 ∧
      (∀ jj, 1 < jj → jj ∉ List.range (1 + 1)) :=
  stream_raw_failure_propagation extSample jobsSample "j1"
    { link := "", s3_key := some "full/x.mp4", parts := 5 }
    "full/x.mp4" "tmp_src.mp4" 600 5 1
    (by decide) rfl rfl rfl rfl (by decide) (by norm_num) (by norm_num) (by norm_num)
    (by
      intro jj h
      have hz : jj = 0 := by omega
      subst hz
      rfl)
    rfl

/-- C5 amended: the job is removed from the registry at the moment its
stream is consumed (a lookup of the same id in the returned registry finds
nothing); but a second consumption request for the same id does not report
"not found" — it receives the pop default (an empty job record), starts the
pipeline, emits the S3 download-attempt line with a `None` key, and fails
with the resulting `TypeError` as a generic terminal failure line. -/
theorem stream_raw_at_most_once :
    (∀ (ext : Ext) (jobs : String → Option JobRec) (jid : String),
        (stream_raw ext jobs jid).2 jid = none) ∧
    (∀ (ext : Ext) (jobs : String → Option JobRec) (jid : String),
        jobs jid = none →
        (stream_raw ext jobs jid).1
          = ([Ev.fetchS3 none, Ev.failure downloadNoneMsg], JobState.Failed, [])) := by
  constructor
  · intro ext jobs jid
    unfold stream_raw JOBS_pop
    cases h : jobs jid with
    | some j => simp
    | none => simpa using h
  · intro ext jobs jid h
    unfold stream_raw JOBS_pop
    rw [h]
    rfl

/-- Witness for C5 amended: consuming an unknown job id yields the
default-record stream. -/
theorem stream_raw_at_most_once_witness :
    (stream_raw extSample (fun _ => none) "j1").1
      = ([Ev.fetchS3 none, Ev.failure downloadNoneMsg], JobState.Failed, []) :=
  stream_raw_at_most_once.2 extSample (fun _ => none) "j1" rfl

/-- C5 counterexample: after a first consumption of job `j1` removed it
from the registry, a second consumption of the same id does not report
"not found": it runs the pipeline against the default empty record — the
stream opens with the S3 download-attempt line (pipeline work) and ends
with a `TypeError` failure line, with no not-found report anywhere. -/
theorem stream_raw_second_consumption_counterexample :
    (stream_raw extSample (stream_raw extSample jobsSample "j1").2 "j1").1
      = ([Ev.fetchS3 none, Ev.failure downloadNoneMsg], JobState.Failed, []) := by
  decide

end Transapp
